import Mathlib

/-!
Verification of the Si5351A oscillator controller (`src/si5351_cli.c`) and its
I2C transport layer (`src/I2C_comm.c`).

The C code is shallowly embedded as follows.

* Machine integers are modelled by `Nat` with explicit `% 2^w` at the points
  where the C type forces a wrap (`unsigned long`/`unsigned` are 32-bit and
  `uint8_t`/`uint16_t` are 8/16-bit on the RP2040 target of this repository).
* A register write over the bus (`i2c_write(g_i2c, g_addr, reg, data, len)`)
  is recorded as an `Event.write reg data`; the chip's register file is a
  function `Nat → Nat` and `applyEvents` replays a write trace onto it.
* Bus transfers issued by the controller are modelled as succeeding and a
  register read (`rd8`) returns the device's current byte for that register;
  the C code only uses the return codes of `wr8`/`rd8` to print diagnostics,
  never to change which registers it programs.
* The floating point divider computation
  `div = (unsigned)((double)PLLA_FREQ/(double)freq_hz + 0.5)` is embedded as
  the exact integer `(2*PLLA_FREQ + freq_hz) / (2*freq_hz)`
  (= `⌊PLLA_FREQ/freq_hz + 1/2⌋`): for every frequency considered in the
  theorems below the IEEE double computation is exact enough that the two
  agree (`800000000` and every relevant `freq_hz` are exactly representable
  and the quotient is never within the double rounding error of a half-integer
  boundary except at exact half-integers, where trunc(x+0.5) and the rational
  floor coincide).
-/

namespace Si5351

/-- One register write on the I2C bus: `i2c_write(g_i2c, g_addr, reg, data, n)`
with `data` the `n` data bytes (the register address byte is implicit). -/
inductive Event where
  | write (reg : Nat) (data : List Nat)
  deriving Repr, DecidableEq

/-- The register a write event targets. -/
def regOfEvent : Event → Nat
  | .write r _ => r

/-- Result of one controller call: the sequence of register writes it put on
the bus, in order, and the diagnostic lines it printed. -/
structure Effect where
  writes : List Event
  msgs : List String
  deriving Repr, DecidableEq

/-- Constants from `si5351_cli.c`. -/
def XTAL_FREQ : Nat := 25000000

def PLLA_FREQ : Nat := 800000000

def REG_OE : Nat := 0x03

def REG_CLK0_CTRL : Nat := 0x10

def REG_CLK1_CTRL : Nat := 0x11

def REG_CLK2_CTRL : Nat := 0x12

def REG_MS0_BASE : Nat := 0x2A

def REG_MS1_BASE : Nat := 0x34

def REG_MS2_BASE : Nat := 0x3E

def REG_CRYSTAL_LOAD : Nat := 0xB7

def REG_PLLA_BASE : Nat := 0x1A

def REG_PLL_RESET : Nat := 0xB1

/-- `static const uint8_t k_clk_ctrl[3]`. -/
def k_clk_ctrl : Nat → Nat
  | 0 => REG_CLK0_CTRL
  | 1 => REG_CLK1_CTRL
  | _ => REG_CLK2_CTRL

/-- `static const uint8_t k_ms_base[3]`. -/
def k_ms_base : Nat → Nat
  | 0 => REG_MS0_BASE
  | 1 => REG_MS1_BASE
  | _ => REG_MS2_BASE

/-- `set_ms_intdiv(ms_base, div)`: integer multisynth programming.
`div` arrives as a `uint16_t`; `a`, `P1`, `P2`, `P3` are `uint32_t`
(no 32-bit wrap is possible: `128*65535 < 2^32`, and `128*a ≥ 512` after the
clamp, so `Nat` subtraction agrees with the C subtraction). -/
def set_ms_intdiv (ms_base : Nat) (div0 : Nat) : Event :=
  let div := if div0 < 4 then 4 else div0
  let a := div
  let P1 := 128 * a - 512
  let P2 := 0
  let P3 := 1
  Event.write ms_base
    [ (P3 >>> 8) &&& 0xFF, P3 &&& 0xFF,
      (P1 >>> 16) &&& 0x03, (P1 >>> 8) &&& 0xFF, P1 &&& 0xFF,
      ((P3 >>> 12) &&& 0xF0) ||| ((P2 >>> 16) &&& 0x0F),
      (P2 >>> 8) &&& 0xFF, P2 &&& 0xFF ]

/-- `freq_hz = (unsigned long)freq_mhz * 1000000UL` — a 32-bit multiply, so it
wraps modulo `2^32` (RP2040: `unsigned long` is 32 bits). -/
def freq_hz_of (freq_mhz : Nat) : Nat := (freq_mhz * 1000000) % 4294967296

/-- `divf = (double)PLLA_FREQ/(double)freq_hz; div = (unsigned)(divf + 0.5)`,
embedded exactly as `⌊PLLA_FREQ/freq_hz + 1/2⌋` (see the file comment). -/
def div_of (freq_hz : Nat) : Nat := (2 * PLLA_FREQ + freq_hz) / (2 * freq_hz)

/-- `si5351_set_freq_ch(ch, freq_mhz)` from `si5351_cli.c`.
`dev` is the chip's register file when the call starts; the `rd8(REG_OE,&oe)`
reads return `dev REG_OE` as a byte.  `oe` is a `uint8_t`, hence the `% 256`
on the bit operations (a no-op for `ch ≤ 2`, kept for faithfulness). -/
def si5351_set_freq_ch (dev : Nat → Nat) (ch freq_mhz : Nat) : Effect :=
  if 2 < ch then { writes := [], msgs := ["ERR: ch (use 0..2)"] }
  else if freq_mhz = 0 then
    { writes := [Event.write REG_OE [((dev REG_OE % 256) ||| (1 <<< ch)) % 256]],
      msgs := ["CLK disabled"] }
  else if 150000000 < freq_hz_of freq_mhz then
    { writes := [], msgs := ["Freq too high (<150 MHz)"] }
  else
    { writes :=
        [ set_ms_intdiv (k_ms_base ch)
            ((if div_of (freq_hz_of freq_mhz) < 4 then 4
              else div_of (freq_hz_of freq_mhz)) % 65536),
          Event.write (k_clk_ctrl ch) [0x4F],
          Event.write REG_OE [((dev REG_OE % 256) &&& (255 ^^^ (1 <<< ch))) % 256] ],
      msgs := ["CLK set"] }

/-- `si5351_init_basic()`: the register-write sequence, in program order.
The PLLA block repeats the multisynth byte construction inline with `a = 32`,
exactly as the C does. -/
def si5351_init_basic_writes : List Event :=
  [ Event.write REG_OE [0xFF],
    Event.write REG_CRYSTAL_LOAD [0b10000000],
    Event.write REG_PLLA_BASE
      (let a := 32
       let P1 := 128 * a - 512
       let P2 := 0
       let P3 := 1
       [ (P3 >>> 8) &&& 0xFF, P3 &&& 0xFF,
         (P1 >>> 16) &&& 0x03, (P1 >>> 8) &&& 0xFF, P1 &&& 0xFF,
         ((P3 >>> 12) &&& 0xF0) ||| ((P2 >>> 16) &&& 0x0F),
         (P2 >>> 8) &&& 0xFF, P2 &&& 0xFF ]),
    Event.write REG_PLL_RESET [0xA0],
    set_ms_intdiv REG_MS0_BASE 8,
    Event.write REG_CLK0_CTRL [0x4F],
    Event.write REG_CLK1_CTRL [0x8F],
    Event.write REG_CLK2_CTRL [0x8F],
    Event.write REG_OE [0xFE] ]

/-- Replay one burst write onto the register file: registers
`reg .. reg+len-1` take the written bytes, all others keep their value. -/
def writeRegs (dev : Nat → Nat) (reg : Nat) (data : List Nat) : Nat → Nat :=
  fun r => if reg ≤ r ∧ r < reg + data.length then data.getD (r - reg) 0 else dev r

/-- Replay a write trace onto the register file, in order. -/
def applyEvents (dev : Nat → Nat) : List Event → (Nat → Nat)
  | [] => dev
  | Event.write reg data :: es => applyEvents (writeRegs dev reg data) es

/-- Register file after a `si5351_set_freq_ch(ch, f)` call that starts from `dev`. -/
def afterSetFreq (dev : Nat → Nat) (ch f : Nat) : Nat → Nat :=
  applyEvents dev (si5351_set_freq_ch dev ch f).writes

/-- An all-zero register file, used as a concrete starting state. -/
def dev0 : Nat → Nat := fun _ => 0

end Si5351

namespace I2Ccomm

/-!
Models of the transport layer (`src/I2C_comm.c`).  The Pico SDK calls
(`i2c_write_blocking` / `i2c_read_blocking`, GPIO reads, the millisecond
clock) are the environment; each model takes the environment's behaviour as
an argument.
-/

/-- `i2c_write(port, addr, reg, data, length)`: builds
`buf = reg :: data` (`length+1` bytes) and makes exactly one
`i2c_write_blocking` call with it; returns 0 on success, -1 on failure.
`busOk` is whether that single `i2c_write_blocking` call returns `≥ 0`.
The result's first component is the list of byte sequences put on the bus. -/
def i2c_write (busOk : Bool) (reg_addr : Nat) (data : List Nat) :
    List (List Nat) × Int :=
  ([reg_addr :: data], if busOk then 0 else -1)

/-- Outcome of `i2c_bus_clear(sda, scl)`: how many clock pulses were issued,
whether the data line was seen released, and the diagnostic lines printed
(the C function prints nothing). -/
structure BusClearResult where
  pulses : Nat
  released : Bool
  msgs : List String
  deriving Repr, DecidableEq

/-- The `for (i = 0; i < 9; i++)` pulse loop of `i2c_bus_clear`:
`sda k` is the level `gpio_get(sda_pin)` reads after the `(k+1)`-th pulse;
the loop breaks as soon as that read is high. -/
def busClearLoop (sda : Nat → Bool) : Nat → Nat → Nat × Bool
  | 0, k => (k, false)
  | n + 1, k => if sda k then (k + 1, true) else busClearLoop sda n (k + 1)

/-- `i2c_bus_clear(sda, scl)` from `I2C_comm.c`: up to 9 clock pulses,
stopping once the data line reads high.  The function prints no message in
any case. -/
def i2c_bus_clear (sda : Nat → Bool) : BusClearResult :=
  { pulses := (busClearLoop sda 9 0).1,
    released := (busClearLoop sda 9 0).2,
    msgs := [] }

/-- Result of a `*_with_timeout` wrapper: the C return value, how many bus
attempts the loop made, and whether the timeout diagnostic was printed. -/
structure TOResult where
  ret : Int
  attempts : Nat
  timedOut : Bool
  deriving Repr, DecidableEq

/-- The retry loop shared by `i2c_read_with_timeout` and
`i2c_write_with_timeout`:

`while (to_ms_since_boot(...) - start < timeout_ms) { if (attempt) return 0; }`

`clock i` is the value of `to_ms_since_boot(get_absolute_time())` at its
`(i+1)`-th call, so `clock 0` is `start` and the `j`-th loop condition reads
`clock (j+1)`.  `att j` is whether the `j`-th bus attempt succeeds.  The C
loop runs until the wall clock passes the deadline; `fuel` bounds how many
iterations the model unrolls, and `none` means the deadline had still not
been reached after `fuel` iterations (the theorems pick `fuel` large enough
that this cannot happen). -/
def toLoop (clock : Nat → Nat) (att : Nat → Bool) (timeout : Nat) :
    Nat → Nat → Option TOResult
  | 0, _ => none
  | n + 1, j =>
    if clock (j + 1) - clock 0 < timeout then
      if att j then some ⟨0, j + 1, false⟩
      else toLoop clock att timeout n (j + 1)
    else some ⟨-1, j, true⟩

/-- `i2c_read_with_timeout`: one attempt is the register-address write phase
(`awr j`) followed, if that succeeded, by the data read phase (`ard j`);
the attempt succeeds when both phases do. -/
def i2c_read_with_timeout (clock : Nat → Nat) (awr ard : Nat → Bool)
    (timeout fuel : Nat) : Option TOResult :=
  toLoop clock (fun j => awr j && ard j) timeout fuel 0

/-- `i2c_write_with_timeout`: builds `buf = reg :: data` once, then retries
the single blocking write; `att j` is whether the `j`-th write attempt
succeeds. -/
def i2c_write_with_timeout (clock : Nat → Nat) (att : Nat → Bool)
    (timeout fuel : Nat) : Option TOResult :=
  toLoop clock att timeout fuel 0

/-- What a completed run of the retry loop satisfies: either it returned 0
because the last attempt made succeeded and every earlier attempt failed and
every attempt was made strictly before the deadline; or it returned -1 with
the timeout diagnostic, the deadline was observed elapsed right after the
last attempt, every attempt failed, and every attempt was made strictly
before the deadline (so no attempt happens once the deadline has elapsed). -/
def RetrySpec (clock : Nat → Nat) (att : Nat → Bool) (timeout : Nat)
    (res : Option TOResult) : Prop :=
  ∃ r, res = some r ∧
    ((r.ret = 0 ∧ r.timedOut = false ∧ 1 ≤ r.attempts ∧
        att (r.attempts - 1) = true ∧
        (∀ k, k + 1 < r.attempts → att k = false) ∧
        (∀ k, k < r.attempts → clock (k + 1) - clock 0 < timeout)) ∨
     (r.ret = -1 ∧ r.timedOut = true ∧
        timeout ≤ clock (r.attempts + 1) - clock 0 ∧
        (∀ k, k < r.attempts → att k = false ∧
          clock (k + 1) - clock 0 < timeout)))

/-- The identity millisecond clock, for concrete runs. -/
def cclock : Nat → Nat := fun j => j

/-- A bus attempt that always succeeds. -/
def attT : Nat → Bool := fun _ => true

/-- A bus attempt that always fails. -/
def attF : Nat → Bool := fun _ => false

/-- A data line that is never released. -/
def sdaStuck : Nat → Bool := fun _ => false

end I2Ccomm

namespace Si5351

/-!
Model of the command dispatcher `si5351_cli_handle` (`si5351_cli.c`).
A command line is a `List Char` (the C string up to its terminator).
-/

/-- The character rewrite done by `replace_char(buf, '=', ' ')`. -/
def replEq (c : Char) : Char := if c = '=' then ' ' else c

/-- The `strtok` delimiter set `" \t\r\n"`. -/
def isDelim (c : Char) : Bool := c == ' ' || c == '\t' || c == '\r' || c == '\n'

/-- `tolower` on the ASCII range, as the C library does in the C locale. -/
def toLowerC (c : Char) : Char :=
  if 'A' ≤ c ∧ c ≤ 'Z' then Char.ofNat (c.toNat + 32) else c

/-- The token sequence successive `strtok(.., " \t\r\n")` calls yield. -/
def tokensOf (s : List Char) : List (List Char) :=
  (s.splitOnP isDelim).filter (fun t => t ≠ [])

/-- `isspace` characters skipped by `atoi`. -/
def isSpaceC (c : Char) : Bool :=
  c == ' ' || c == '\t' || c == '\n' || c == '\x0b' || c == '\x0c' || c == '\r'

/-- Drop the leading `isspace` run, as `atoi`/`strtoul` do. -/
def dropSpaces : List Char → List Char
  | [] => []
  | c :: cs => if isSpaceC c then dropSpaces cs else c :: cs

/-- Accumulate a decimal digit run, stopping at the first non-digit. -/
def digitsAcc : List Char → Nat → Nat
  | [], acc => acc
  | c :: cs, acc =>
    if '0' ≤ c ∧ c ≤ '9' then digitsAcc cs (10 * acc + (c.toNat - 48)) else acc

/-- `atoi`: optional whitespace, optional sign, decimal digit run. -/
def atoi (s : List Char) : Int :=
  match dropSpaces s with
  | '-' :: rest => -(digitsAcc rest 0 : Int)
  | '+' :: rest => (digitsAcc rest 0 : Int)
  | rest => (digitsAcc rest 0 : Int)

/-- The `(unsigned)` cast applied to an `int`: reduce modulo `2^32`. -/
def toUns (i : Int) : Nat := (i % 4294967296).toNat

/-- Accumulate a hexadecimal digit run, stopping at the first non-hex-digit. -/
def hexAcc : List Char → Nat → Nat
  | [], acc => acc
  | c :: cs, acc =>
    if '0' ≤ c ∧ c ≤ '9' then hexAcc cs (16 * acc + (c.toNat - 48))
    else if 'a' ≤ c ∧ c ≤ 'f' then hexAcc cs (16 * acc + (c.toNat - 87))
    else if 'A' ≤ c ∧ c ≤ 'F' then hexAcc cs (16 * acc + (c.toNat - 55))
    else acc

/-- `strtoul(s, NULL, 16)` restricted to what `peek`/`poke` need: optional
whitespace and sign, optional `0x`/`0X` prefix, hex digit run; the value
wraps as an `unsigned long` (32 bits). -/
def strtoul16 (s : List Char) : Nat :=
  let body : List Char → Nat := fun t =>
    match t with
    | '0' :: 'x' :: rest => hexAcc rest 0
    | '0' :: 'X' :: rest => hexAcc rest 0
    | rest => hexAcc rest 0
  (match dropSpaces s with
   | '-' :: rest => toUns (-(body rest : Int))
   | '+' :: rest => body rest % 4294967296
   | rest => body rest % 4294967296)

/-- The operation `si5351_cli_handle` dispatches a line to. -/
inductive Action where
  | nothing
  | help
  | scan
  | status
  | peekUsage
  | peek (reg : List Char)
  | pokeUsage
  | poke (reg val : List Char)
  | initBasic
  | forceOn
  | oeUsage
  | oeOn
  | oeOff
  | freqUsage
  | clkUsage
  | setFreq (ch mhz : Nat)
  | unknown
  deriving Repr, DecidableEq

/-- The verb dispatch of `si5351_cli_handle`, applied to the already
`=`-normalized buffer.  The first token is truncated to 31 characters
(`char key[32]` with forced terminator) and lower-cased; branches are tried
in the order of the C `if` chain. -/
def cliActionCore (buf : List Char) : Action :=
  match tokensOf buf with
  | [] => Action.nothing
  | tok :: rest =>
    let key := (tok.take 31).map toLowerC
    if key = [ 'h', 'e', 'l', 'p' ] ∨ key = [ 'h' ] ∨ key = [ '?' ] then .help
    else if key = [ 's', 'c', 'a', 'n' ] then .scan
    else if key = [ 's', 't', 'a', 't', 'u', 's' ] then .status
    else if key = [ 'p', 'e', 'e', 'k' ] then
      match rest with
      | [] => .peekUsage
      | ra :: _ => .peek ra
    else if key = [ 'p', 'o', 'k', 'e' ] then
      match rest with
      | ra :: va :: _ => .poke ra va
      | _ => .pokeUsage
    else if key = [ 'i', 'n', 'i', 't' ] then .initBasic
    else if key = [ 'f', 'o', 'r', 'c', 'e', '_', 'o', 'n' ] then .forceOn
    else if key = [ 'o', 'e' ] then
      match rest with
      | [] => .oeUsage
      | m :: _ =>
        if m.map toLowerC = [ 'o', 'n' ] then .oeOn
        else if m.map toLowerC = [ 'o', 'f', 'f' ] then .oeOff
        else .oeUsage
    else if key = [ 'f', 'r', 'e', 'q' ] then
      match rest with
      | [] => .freqUsage
      | p :: _ => .setFreq 0 (toUns (atoi p))
    else if key = [ 'c', 'l', 'k' ] then
      match rest with
      | ch :: mhz :: _ => .setFreq (toUns (atoi ch)) (toUns (atoi mhz))
      | _ => .clkUsage
    else if key = [ 'f', 'r', 'e', 'q', '0' ] ∨ key = [ 'c', 'h', '0' ] ∨
            key = [ 'c', 'l', 'k', '0' ] ∨ key = [ 'c', 'l', 'l', '0' ] then
      match rest with
      | [] => .setFreq 0 0
      | p :: _ => .setFreq 0 (toUns (atoi p))
    else if key = [ 'f', 'r', 'e', 'q', '1' ] ∨ key = [ 'c', 'h', '1' ] ∨
            key = [ 'c', 'l', 'k', '1' ] ∨ key = [ 'c', 'l', 'l', '1' ] then
      match rest with
      | [] => .setFreq 1 0
      | p :: _ => .setFreq 1 (toUns (atoi p))
    else if key = [ 'f', 'r', 'e', 'q', '2' ] ∨ key = [ 'c', 'h', '2' ] ∨
            key = [ 'c', 'l', 'k', '2' ] ∨ key = [ 'c', 'l', 'l', '2' ] then
      match rest with
      | [] => .setFreq 2 0
      | p :: _ => .setFreq 2 (toUns (atoi p))
    else .unknown

/-- `si5351_cli_handle(cmd)`: the empty-line guard, the copy into the
128-byte `buf` (truncation to 127 characters), the `=`-to-space rewrite,
then verb dispatch. -/
def cliAction (cmd : List Char) : Action :=
  if cmd = [] then Action.nothing
  else cliActionCore ((cmd.take 127).map replEq)

/-- The register writes a dispatched line causes, starting from register
file `dev` (diagnostic-only verbs and bus-probe verbs write no registers). -/
def cliWrites (dev : Nat → Nat) (cmd : List Char) : List Event :=
  match cliAction cmd with
  | .setFreq ch f => (si5351_set_freq_ch dev ch f).writes
  | .poke ra va => [Event.write (strtoul16 ra % 256) [strtoul16 va % 256]]
  | .initBasic => si5351_init_basic_writes
  | .forceOn =>
      [Event.write REG_OE [0xFF], Event.write REG_OE [0xFE],
       Event.write REG_CLK0_CTRL [0x4F]]
  | .oeOn => [Event.write REG_OE [0x00]]
  | .oeOff => [Event.write REG_OE [0xFF]]
  | _ => []

/-- The divider the spec asks for, in its own words: `divider = round(PLL
output frequency ÷ requested frequency in Hz)`, over the exact rationals.
This is the spec-side definition, to be compared with the code's `div_of`. -/
def roundDividerSpec (freq_hz : Nat) : Nat :=
  (round ((PLLA_FREQ : ℚ) / (freq_hz : ℚ))).toNat

lemma roundDividerSpec_eq_div_of (fhz : Nat) (h : 0 < fhz) :
    roundDividerSpec fhz = div_of fhz := by
  unfold roundDividerSpec div_of
  rw [round_eq]
  have hfz : ((fhz : ℚ)) ≠ 0 := by exact_mod_cast Nat.pos_iff_ne_zero.mp h
  have h2 : (PLLA_FREQ : ℚ) / (fhz : ℚ) + 1 / 2 =
      (((2 * PLLA_FREQ + fhz : ℕ) : ℤ) : ℚ) / ((2 * fhz : ℕ) : ℚ) := by
    push_cast
    field_simp
    ring
  rw [h2, Rat.floor_intCast_div_natCast]
  rw [show ((2 * PLLA_FREQ + fhz : ℕ) : ℤ) / ((2 * fhz : ℕ) : ℤ) =
      (((2 * PLLA_FREQ + fhz) / (2 * fhz) : ℕ) : ℤ) from (Int.natCast_div _ _).symm]
  exact Int.toNat_natCast _

lemma div_of_ge_four (fhz : Nat) (h1 : 0 < fhz) (h2 : fhz ≤ 150000000) :
    4 ≤ div_of fhz := by
  unfold div_of PLLA_FREQ
  rw [Nat.le_div_iff_mul_le (by omega)]
  omega

lemma div_of_le_800 (fhz : Nat) (h1 : 1000000 ≤ fhz) : div_of fhz ≤ 800 := by
  unfold div_of PLLA_FREQ
  have : (2 * 800000000 + fhz) / (2 * fhz) < 801 := by
    rw [Nat.div_lt_iff_lt_mul (by omega)]
    omega
  omega

lemma mod256_testBit (x j : Nat) (hj : j < 8) : (x % 256).testBit j = x.testBit j := by
  rw [show (256 : ℕ) = 2 ^ 8 from rfl, Nat.testBit_mod_two_pow]
  simp [hj]

lemma writeRegs_single_self (dev : Nat → Nat) (reg v : Nat) :
    writeRegs dev reg [v] reg = v := by
  unfold writeRegs
  rw [if_pos ⟨le_refl _, by simp⟩]
  simp

/-- Shape of a `si5351_set_freq_ch` call whose frequency is accepted. -/
lemma set_freq_ch_accept (dev : Nat → Nat) (ch f : Nat) (h1 : ch ≤ 2) (h2 : f ≠ 0)
    (h3 : freq_hz_of f ≤ 150000000) :
    si5351_set_freq_ch dev ch f =
      { writes :=
          [ set_ms_intdiv (k_ms_base ch)
              ((if div_of (freq_hz_of f) < 4 then 4 else div_of (freq_hz_of f)) % 65536),
            Event.write (k_clk_ctrl ch) [0x4F],
            Event.write REG_OE [((dev REG_OE % 256) &&& (255 ^^^ (1 <<< ch))) % 256] ],
        msgs := ["CLK set"] } := by
  unfold si5351_set_freq_ch
  rw [if_neg (by omega), if_neg h2, if_neg (by omega)]

/-- Shape of a `si5351_set_freq_ch(ch, 0)` (disable) call. -/
lemma set_freq_ch_disable (dev : Nat → Nat) (ch : Nat) (h1 : ch ≤ 2) :
    si5351_set_freq_ch dev ch 0 =
      { writes := [Event.write REG_OE [((dev REG_OE % 256) ||| (1 <<< ch)) % 256]],
        msgs := ["CLK disabled"] } := by
  unfold si5351_set_freq_ch
  rw [if_neg (by omega), if_pos rfl]

/-- **C1.** For every requested frequency `f` with `0 < f ≤ 150` MHz (the
command interface works in whole MHz), `si5351_set_freq_ch` programs the
channel's multisynth registers, as its first write, with a divider equal to
`round(PLLA_FREQ / freq_hz)` clamped to a minimum of 4, and that divider is
always ≥ 4. -/
theorem claim_C1_divider_rounding (dev : Nat → Nat) (ch f : Nat)
    (h1 : ch ≤ 2) (h2 : 1 ≤ f) (h3 : f ≤ 150) :
    4 ≤ max 4 (roundDividerSpec (f * 1000000)) ∧
    (si5351_set_freq_ch dev ch f).writes.head? =
      some (set_ms_intdiv (k_ms_base ch) (max 4 (roundDividerSpec (f * 1000000)))) := by
  have hfhz : freq_hz_of f = f * 1000000 := by
    unfold freq_hz_of
    exact Nat.mod_eq_of_lt (by omega)
  have hle : freq_hz_of f ≤ 150000000 := by omega
  have h4 : 4 ≤ div_of (freq_hz_of f) := div_of_ge_four _ (by omega) hle
  have h8 : div_of (freq_hz_of f) ≤ 800 := div_of_le_800 _ (by omega)
  have hbr : roundDividerSpec (f * 1000000) = div_of (freq_hz_of f) := by
    rw [hfhz]
    exact roundDividerSpec_eq_div_of _ (by omega)
  refine ⟨le_max_left _ _, ?_⟩
  rw [set_freq_ch_accept dev ch f h1 (by omega) hle]
  have hclamp : (if div_of (freq_hz_of f) < 4 then 4 else div_of (freq_hz_of f)) % 65536 =
      div_of (freq_hz_of f) := by
    rw [if_neg (by omega)]
    exact Nat.mod_eq_of_lt (by omega)
  rw [show max 4 (roundDividerSpec (f * 1000000)) = div_of (freq_hz_of f) by
    rw [hbr]; exact Nat.max_eq_right h4]
  rw [hclamp]
  rfl

/-- Witness for C1 at channel 0, 100 MHz. -/
theorem claim_C1_divider_rounding_witness :
    (0 : Nat) ≤ 2 ∧ (1 : Nat) ≤ 100 ∧ (100 : Nat) ≤ 150 ∧
    (4 ≤ max 4 (roundDividerSpec (100 * 1000000)) ∧
     (si5351_set_freq_ch dev0 0 100).writes.head? =
       some (set_ms_intdiv (k_ms_base 0) (max 4 (roundDividerSpec (100 * 1000000))))) :=
  ⟨by decide, by decide, by decide,
   claim_C1_divider_rounding dev0 0 100 (by decide) (by decide) (by decide)⟩

/-- **C2.** In every accepted frequency-changing call, the multisynth divider
write and the control-register write come first and the Output-Enable write
(with the channel's bit cleared) is the last register write of the call; and
in `si5351_init_basic` the Output-Enable write that first enables channel 0
(`0xFE`) is the last register write of the whole sequence, after channel 0's
divider and control writes, the only earlier OE write being the all-off
`0xFF` of step 1.  (The hypothesis `freq_hz_of f ≠ 0` excludes the inputs
`f ≡ 0 mod 2^26` whose 32-bit `freq_hz` wraps to zero, for which the C
divider computation divides by zero.) -/
theorem claim_C2_enable_written_last (dev : Nat → Nat) (ch f : Nat)
    (h1 : ch ≤ 2) (h2 : f ≠ 0) (h3 : freq_hz_of f ≤ 150000000)
    (h4 : freq_hz_of f ≠ 0) :
    (∃ d v, (si5351_set_freq_ch dev ch f).writes =
        [Event.write (k_ms_base ch) d, Event.write (k_clk_ctrl ch) [0x4F],
         Event.write REG_OE [v]] ∧
      k_ms_base ch ≠ REG_OE ∧ k_clk_ctrl ch ≠ REG_OE ∧ v.testBit ch = false) ∧
    si5351_init_basic_writes.getLast? = some (Event.write REG_OE [0xFE]) ∧
    (∃ l, si5351_init_basic_writes = l ++ [Event.write REG_OE [0xFE]] ∧
      set_ms_intdiv REG_MS0_BASE 8 ∈ l ∧ Event.write REG_CLK0_CTRL [0x4F] ∈ l ∧
      ∀ e ∈ l, regOfEvent e = REG_OE → e = Event.write REG_OE [0xFF]) := by
  refine ⟨?_, by decide, ?_⟩
  · rw [set_freq_ch_accept dev ch f h1 h2 h3]
    refine ⟨_, _, rfl, ?_, ?_, ?_⟩
    · interval_cases ch <;> decide
    · interval_cases ch <;> decide
    · interval_cases ch
      · rw [mod256_testBit _ _ (by omega), Nat.testBit_and,
          (by decide : Nat.testBit (255 ^^^ (1 <<< 0)) 0 = false), Bool.and_false]
      · rw [mod256_testBit _ _ (by omega), Nat.testBit_and,
          (by decide : Nat.testBit (255 ^^^ (1 <<< 1)) 1 = false), Bool.and_false]
      · rw [mod256_testBit _ _ (by omega), Nat.testBit_and,
          (by decide : Nat.testBit (255 ^^^ (1 <<< 2)) 2 = false), Bool.and_false]
  · refine ⟨[ Event.write REG_OE [0xFF],
        Event.write REG_CRYSTAL_LOAD [0b10000000],
        Event.write REG_PLLA_BASE [0, 1, 0, 14, 0, 0, 0, 0],
        Event.write REG_PLL_RESET [0xA0],
        set_ms_intdiv REG_MS0_BASE 8,
        Event.write REG_CLK0_CTRL [0x4F],
        Event.write REG_CLK1_CTRL [0x8F],
        Event.write REG_CLK2_CTRL [0x8F] ], by decide, by decide, by decide, by decide⟩

/-- Witness for C2 at channel 1, 10 MHz. -/
theorem claim_C2_enable_written_last_witness :
    (1 : Nat) ≤ 2 ∧ (10 : Nat) ≠ 0 ∧ freq_hz_of 10 ≤ 150000000 ∧ freq_hz_of 10 ≠ 0 ∧
    ((∃ d v, (si5351_set_freq_ch dev0 1 10).writes =
        [Event.write (k_ms_base 1) d, Event.write (k_clk_ctrl 1) [0x4F],
         Event.write REG_OE [v]] ∧
      k_ms_base 1 ≠ REG_OE ∧ k_clk_ctrl 1 ≠ REG_OE ∧ v.testBit 1 = false) ∧
    si5351_init_basic_writes.getLast? = some (Event.write REG_OE [0xFE]) ∧
    (∃ l, si5351_init_basic_writes = l ++ [Event.write REG_OE [0xFE]] ∧
      set_ms_intdiv REG_MS0_BASE 8 ∈ l ∧ Event.write REG_CLK0_CTRL [0x4F] ∈ l ∧
      ∀ e ∈ l, regOfEvent e = REG_OE → e = Event.write REG_OE [0xFF])) :=
  ⟨by decide, by decide, by decide, by decide,
   claim_C2_enable_written_last dev0 1 10 (by decide) (by decide) (by decide) (by decide)⟩

/-- **C3.** The claim says every request whose frequency exceeds 150 MHz is
rejected with no register writes.  The code computes
`freq_hz = freq_mhz * 1000000UL` in 32-bit arithmetic, so at
`freq_mhz = 4295` (a 4295 MHz request, far above 150 MHz) the product wraps
to 32704 Hz, the `> 150000000` guard passes, and the call performs its three
register writes and prints the success message instead of the rejection
diagnostic. -/
theorem claim_C3_overflow_accepts_high_freq :
    150 < 4295 ∧
    freq_hz_of 4295 = 32704 ∧
    freq_hz_of 4295 ≤ 150000000 ∧
    (si5351_set_freq_ch dev0 0 4295).writes ≠ [] ∧
    (si5351_set_freq_ch dev0 0 4295).writes.length = 3 ∧
    (si5351_set_freq_ch dev0 0 4295).msgs = ["CLK set"] := by decide

/-- Register file after replaying a disable call, for C4. -/
lemma writeRegs_other (dev : Nat → Nat) (reg : Nat) (data : List Nat) (r : Nat)
    (h : r < reg ∨ reg + data.length ≤ r) : writeRegs dev reg data r = dev r := by
  unfold writeRegs
  rw [if_neg (by omega)]

/-- **C4.** `si5351_set_freq_ch(ch, 0)` performs a single register write, to
the Output-Enable register: afterwards that channel's disable bit is set,
every other bit of the Output-Enable register is unchanged, every register
other than the Output-Enable register is unchanged (in particular the
channel's eight multisynth divider bytes are byte-for-byte unchanged, and no
other channel's Output-Enable bit is altered). -/
theorem claim_C4_disable_frame (dev : Nat → Nat) (ch : Nat) (h1 : ch ≤ 2)
    (hb : dev REG_OE < 256) :
    ((afterSetFreq dev ch 0) REG_OE).testBit ch = true ∧
    (∀ j, j < 8 → j ≠ ch →
      ((afterSetFreq dev ch 0) REG_OE).testBit j = (dev REG_OE).testBit j) ∧
    (∀ r, r ≠ REG_OE → (afterSetFreq dev ch 0) r = dev r) ∧
    (∀ k, k < 8 → (afterSetFreq dev ch 0) (k_ms_base ch + k) = dev (k_ms_base ch + k)) := by
  have hdis : afterSetFreq dev ch 0 =
      writeRegs dev REG_OE [((dev REG_OE % 256) ||| (1 <<< ch)) % 256] := by
    unfold afterSetFreq
    rw [set_freq_ch_disable dev ch h1]
    rfl
  have hoe : (afterSetFreq dev ch 0) REG_OE =
      ((dev REG_OE % 256) ||| (1 <<< ch)) % 256 := by
    rw [hdis]
    exact writeRegs_single_self dev REG_OE _
  have hmod : dev REG_OE % 256 = dev REG_OE := Nat.mod_eq_of_lt hb
  have hother : ∀ r, r ≠ REG_OE → (afterSetFreq dev ch 0) r = dev r := by
    intro r hr
    rw [hdis]
    apply writeRegs_other
    unfold REG_OE at hr ⊢
    simp only [List.length_singleton]
    omega
  refine ⟨?_, ?_, hother, ?_⟩
  · rw [hoe, hmod]
    interval_cases ch
    · rw [mod256_testBit _ _ (by omega), Nat.testBit_or,
        (by decide : Nat.testBit (1 <<< 0) 0 = true), Bool.or_true]
    · rw [mod256_testBit _ _ (by omega), Nat.testBit_or,
        (by decide : Nat.testBit (1 <<< 1) 1 = true), Bool.or_true]
    · rw [mod256_testBit _ _ (by omega), Nat.testBit_or,
        (by decide : Nat.testBit (1 <<< 2) 2 = true), Bool.or_true]
  · intro j hj hne
    rw [hoe, hmod]
    have hbit : Nat.testBit (1 <<< ch) j = false := by
      rw [show (1 <<< ch : ℕ) = 2 ^ ch by rw [Nat.shiftLeft_eq]; omega]
      exact Nat.testBit_two_pow_of_ne (fun h => hne h.symm)
    rw [mod256_testBit _ _ hj, Nat.testBit_or, hbit, Bool.or_false]
  · intro k hk
    apply hother
    interval_cases ch <;>
      simp only [k_ms_base, REG_MS0_BASE, REG_MS1_BASE, REG_MS2_BASE, REG_OE] <;> omega

/-- Witness for C4 at channel 2 from a register file with OE = 0x5A. -/
theorem claim_C4_disable_frame_witness :
    (2 : Nat) ≤ 2 ∧ (fun r => if r = REG_OE then 0x5A else r) REG_OE < 256 ∧
    (((afterSetFreq (fun r => if r = REG_OE then 0x5A else r) 2 0) REG_OE).testBit 2 = true ∧
     (∀ j, j < 8 → j ≠ 2 →
       ((afterSetFreq (fun r => if r = REG_OE then 0x5A else r) 2 0) REG_OE).testBit j =
         ((fun r => if r = REG_OE then 0x5A else r) REG_OE).testBit j) ∧
     (∀ r, r ≠ REG_OE → (afterSetFreq (fun r => if r = REG_OE then 0x5A else r) 2 0) r =
       (fun r => if r = REG_OE then 0x5A else r) r) ∧
     (∀ k, k < 8 → (afterSetFreq (fun r => if r = REG_OE then 0x5A else r) 2 0) (k_ms_base 2 + k) =
       (fun r => if r = REG_OE then 0x5A else r) (k_ms_base 2 + k))) :=
  ⟨by decide, by decide,
   claim_C4_disable_frame (fun r => if r = REG_OE then 0x5A else r) 2 (by decide) (by decide)⟩

/-- **C10.** Each of the per-channel verbs `freqN` / `chN` / `clkN` / `cllN`
(N ∈ {0,1,2}) given with no argument dispatches to the set-frequency
operation with frequency 0 — i.e. it disables channel N — rather than
emitting a usage diagnostic. -/
theorem claim_C10_bare_channel_verbs :
    cliAction ("freq0".toList) = Action.setFreq 0 0 ∧
    cliAction ("ch0".toList) = Action.setFreq 0 0 ∧
    cliAction ("clk0".toList) = Action.setFreq 0 0 ∧
    cliAction ("cll0".toList) = Action.setFreq 0 0 ∧
    cliAction ("freq1".toList) = Action.setFreq 1 0 ∧
    cliAction ("ch1".toList) = Action.setFreq 1 0 ∧
    cliAction ("clk1".toList) = Action.setFreq 1 0 ∧
    cliAction ("cll1".toList) = Action.setFreq 1 0 ∧
    cliAction ("freq2".toList) = Action.setFreq 2 0 ∧
    cliAction ("ch2".toList) = Action.setFreq 2 0 ∧
    cliAction ("clk2".toList) = Action.setFreq 2 0 ∧
    cliAction ("cll2".toList) = Action.setFreq 2 0 := by decide

end Si5351

namespace I2Ccomm

/-- **C5 (counterexample).** The claim says `i2c_write` rejects any payload
longer than 8 bytes before any bus activity.  In fact `i2c_write` contains
no length check at all: a 9-byte payload is forwarded to the bus (one
transaction of 10 bytes is issued) and the call returns success. -/
theorem claim_C5_no_length_check :
    ([1, 2, 3, 4, 5, 6, 7, 8, 9] : List Nat).length = 9 ∧
    (i2c_write true 0x2A [1, 2, 3, 4, 5, 6, 7, 8, 9]).1 ≠ [] ∧
    (i2c_write true 0x2A [1, 2, 3, 4, 5, 6, 7, 8, 9]).1 =
      [[0x2A, 1, 2, 3, 4, 5, 6, 7, 8, 9]] ∧
    (i2c_write true 0x2A [1, 2, 3, 4, 5, 6, 7, 8, 9]).2 = 0 := by decide

/-- **C5 (amended).** `i2c_write` imposes no maximum payload: for every
payload, of any length, it performs exactly one bus transaction consisting
of the register-address byte followed by the payload (`length + 1` bytes),
and reports that transaction's outcome. -/
theorem claim_C5_every_length_forwarded (busOk : Bool) (reg : Nat) (data : List Nat) :
    (i2c_write busOk reg data).1 = [reg :: data] ∧
    (reg :: data).length = data.length + 1 ∧
    ((i2c_write busOk reg data).2 = 0 ↔ busOk = true) := by
  refine ⟨rfl, by simp, ?_⟩
  unfold i2c_write
  cases busOk <;> simp

lemma busClearLoop_eq_find (sda : Nat → Bool) :
    ∀ n k, busClearLoop sda n k =
      (match (List.range' k n).find? sda with
       | some j => (j + 1, true)
       | none => (k + n, false)) := by
  intro n
  induction n with
  | zero => intro k; simp [busClearLoop]
  | succ n ih =>
    intro k
    rw [List.range'_succ]
    by_cases h : sda k
    · rw [List.find?_cons_of_pos _ h]
      simp [busClearLoop, h]
    · rw [List.find?_cons_of_neg _ h]
      rw [show busClearLoop sda (n + 1) k = busClearLoop sda n (k + 1) by
        simp [busClearLoop, h]]
      rw [ih (k + 1)]
      cases (List.range' (k + 1) n).find? sda <;> simp <;> omega

/-- **C6 (amended).** `i2c_bus_clear` pulses the clock at most 9 times,
checks the data line after each pulse and stops at the first pulse after
which the line reads high; if the line never reads high it performs exactly
9 pulses and finishes without emitting any diagnostic (in no case does the
function print anything): the run is fully characterized by the first index
below 9 at which the simulated data line reads high. -/
theorem claim_C6_bus_clear_behaviour (sda : Nat → Bool) :
    (i2c_bus_clear sda).pulses ≤ 9 ∧
    (i2c_bus_clear sda).msgs = [] ∧
    i2c_bus_clear sda =
      (match (List.range 9).find? sda with
       | some k => ⟨k + 1, true, []⟩
       | none => ⟨9, false, []⟩) := by
  have hchar : i2c_bus_clear sda =
      (match (List.range 9).find? sda with
       | some k => ⟨k + 1, true, []⟩
       | none => ⟨9, false, []⟩) := by
    unfold i2c_bus_clear
    rw [List.range_eq_range', busClearLoop_eq_find sda 9 0]
    cases h : (List.range' 0 9).find? sda <;> simp
  refine ⟨?_, ?_, hchar⟩
  · rw [hchar]
    cases h : (List.range 9).find? sda with
    | none => simp
    | some k =>
      have : k < 9 := List.mem_range.mp (List.mem_of_find?_eq_some h)
      simp
      omega
  · rw [hchar]
    cases h : (List.range 9).find? sda <;> simp

/-- **C6 (counterexample).** Against a data line that is never released,
`i2c_bus_clear` issues its 9 pulses and returns without reporting anything:
the claimed "reports that it remains stuck" diagnostic does not exist (the
function prints no message in any case). -/
theorem claim_C6_no_stuck_report :
    (i2c_bus_clear sdaStuck).released = false ∧
    (i2c_bus_clear sdaStuck).pulses = 9 ∧
    (i2c_bus_clear sdaStuck).msgs = [] := by decide

lemma toLoop_spec (clock : Nat → Nat) (att : Nat → Bool) (timeout : Nat) :
    ∀ n j r, toLoop clock att timeout n j = some r →
      ((r.ret = 0 ∧ r.timedOut = false ∧ j + 1 ≤ r.attempts ∧
          att (r.attempts - 1) = true ∧
          (∀ k, j ≤ k → k + 1 < r.attempts → att k = false) ∧
          (∀ k, j ≤ k → k < r.attempts → clock (k + 1) - clock 0 < timeout)) ∨
       (r.ret = -1 ∧ r.timedOut = true ∧ j ≤ r.attempts ∧
          timeout ≤ clock (r.attempts + 1) - clock 0 ∧
          (∀ k, j ≤ k → k < r.attempts →
            att k = false ∧ clock (k + 1) - clock 0 < timeout))) := by
  intro n
  induction n with
  | zero => intro j r h; simp [toLoop] at h
  | succ n ih =>
    intro j r h
    rw [toLoop] at h
    by_cases hc : clock (j + 1) - clock 0 < timeout
    · rw [if_pos hc] at h
      by_cases ha : att j
      · rw [if_pos ha] at h
        cases Option.some.inj h
        dsimp only
        left
        refine ⟨rfl, rfl, le_refl _, by simpa using ha, ?_, ?_⟩
        · intro k hk hk2
          omega
        · intro k hk hk2
          have : k = j := by omega
          subst this
          exact hc
      · rw [if_neg ha] at h
        rcases ih (j + 1) r h with ⟨e1, e2, e3, e4, e5, e6⟩ | ⟨e1, e2, e3, e4, e5⟩
        · left
          refine ⟨e1, e2, by omega, e4, ?_, ?_⟩
          · intro k hk hk2
            rcases Nat.eq_or_lt_of_le hk with rfl | hlt
            · simpa using ha
            · exact e5 k (by omega) hk2
          · intro k hk hk2
            rcases Nat.eq_or_lt_of_le hk with rfl | hlt
            · exact hc
            · exact e6 k (by omega) hk2
        · right
          refine ⟨e1, e2, by omega, e4, ?_⟩
          intro k hk hk2
          rcases Nat.eq_or_lt_of_le hk with rfl | hlt
          · exact ⟨by simpa using ha, hc⟩
          · exact e5 k (by omega) hk2
    · rw [if_neg hc] at h
      cases Option.some.inj h
      dsimp only
      right
      refine ⟨rfl, rfl, le_refl _, by omega, ?_⟩
      intro k hk hk2
      omega

lemma toLoop_none (clock : Nat → Nat) (att : Nat → Bool) (timeout : Nat) :
    ∀ n j, 1 ≤ n → toLoop clock att timeout n j = none →
      clock (j + n) - clock 0 < timeout := by
  intro n
  induction n with
  | zero => intro j h; omega
  | succ n ih =>
    intro j _ h
    rw [toLoop] at h
    by_cases hc : clock (j + 1) - clock 0 < timeout
    · rw [if_pos hc] at h
      by_cases ha : att j
      · rw [if_pos ha] at h
        simp at h
      · rw [if_neg ha] at h
        cases n with
        | zero => simpa using hc
        | succ m =>
          have := ih (j + 1) (by omega) h
          have heq : j + 1 + (m + 1) = j + (m + 1 + 1) := by omega
          rw [heq] at this
          exact this
    · rw [if_neg hc] at h
      simp at h

/-- **C8.** Whenever the wall clock reaches the deadline within `fuel` loop
iterations, both `i2c_read_with_timeout` and `i2c_write_with_timeout`
complete, and the completed run satisfies `RetrySpec`: the loop returns 0 as
soon as one attempt succeeds (all earlier attempts failed), every attempt is
made strictly before the deadline, and once the deadline has elapsed the
loop returns -1 with the timeout diagnostic, having made no attempt at or
after the deadline. -/
theorem claim_C8_bounded_retry (clock : Nat → Nat) (awr ard attw : Nat → Bool)
    (timeout fuel : Nat) (h1 : 1 ≤ fuel) (h2 : timeout ≤ clock fuel - clock 0) :
    RetrySpec clock (fun j => awr j && ard j) timeout
      (i2c_read_with_timeout clock awr ard timeout fuel) ∧
    RetrySpec clock attw timeout
      (i2c_write_with_timeout clock attw timeout fuel) := by
  have main : ∀ att : Nat → Bool,
      RetrySpec clock att timeout (toLoop clock att timeout fuel 0) := by
    intro att
    cases hres : toLoop clock att timeout fuel 0 with
    | none =>
      have := toLoop_none clock att timeout fuel 0 h1 hres
      simp at this
      omega
    | some r =>
      refine ⟨r, rfl, ?_⟩
      rcases toLoop_spec clock att timeout fuel 0 r hres with
        ⟨e1, e2, e3, e4, e5, e6⟩ | ⟨e1, e2, e3, e4, e5⟩
      · exact Or.inl ⟨e1, e2, by omega, e4,
          fun k hk => e5 k (by omega) hk, fun k hk => e6 k (by omega) hk⟩
      · exact Or.inr ⟨e1, e2, e4, fun k hk => e5 k (by omega) hk⟩
  exact ⟨main _, main _⟩

/-- Witness for C8: identity clock, timeout 1 ms, fuel 2, a read whose
attempts always succeed and a write whose attempts always fail. -/
theorem claim_C8_bounded_retry_witness :
    (1 : Nat) ≤ 2 ∧ (1 : Nat) ≤ cclock 2 - cclock 0 ∧
    (RetrySpec cclock (fun j => attT j && attT j) 1
       (i2c_read_with_timeout cclock attT attT 1 2) ∧
     RetrySpec cclock attF 1 (i2c_write_with_timeout cclock attF 1 2)) :=
  ⟨by decide, by decide,
   claim_C8_bounded_retry cclock attT attT attF 1 2 (by decide) (by decide)⟩

/-- **C9.** With `timeout_ms = 0` the deadline check (which precedes the
first attempt) fails immediately: both wrappers return -1 with the timeout
diagnostic after zero bus attempts. -/
theorem claim_C9_zero_timeout (clock : Nat → Nat) (awr ard attw : Nat → Bool)
    (fuel : Nat) (h : 1 ≤ fuel) :
    i2c_read_with_timeout clock awr ard 0 fuel = some ⟨-1, 0, true⟩ ∧
    i2c_write_with_timeout clock attw 0 fuel = some ⟨-1, 0, true⟩ := by
  obtain ⟨n, rfl⟩ : ∃ n, fuel = n + 1 := ⟨fuel - 1, by omega⟩
  unfold i2c_read_with_timeout i2c_write_with_timeout
  rw [toLoop, toLoop]
  simp

/-- Witness for C9 at fuel 1. -/
theorem claim_C9_zero_timeout_witness :
    (1 : Nat) ≤ 1 ∧
    (i2c_read_with_timeout cclock attT attT 0 1 = some ⟨-1, 0, true⟩ ∧
     i2c_write_with_timeout cclock attT 0 1 = some ⟨-1, 0, true⟩) :=
  ⟨by decide, claim_C9_zero_timeout cclock attT attT attT 1 (by decide)⟩

end I2Ccomm

namespace Si5351

lemma replEq_idem (c : Char) : replEq (replEq c) = replEq c := by
  unfold replEq
  by_cases h : c = '=' <;> simp [h]

/-- **C7.** The command lines `clk0=100` and `clk 0 100` dispatch to the
same controller operation (`si5351_set_freq_ch(0, 100)`) and therefore
produce identical register writes from any starting register file; and in
general the dispatcher's `=`-to-whitespace normalization makes a line in
which `=` has been replaced by a space parse to exactly the same action as
the original, so `key=value` parses identically to `key value`. -/
theorem claim_C7_eq_normalization :
    (∀ dev, cliWrites dev ("clk0=100".toList) = cliWrites dev ("clk 0 100".toList)) ∧
    (∀ cmd : List Char, cliAction (cmd.map replEq) = cliAction cmd) := by
  constructor
  · intro dev
    have h1 : cliAction ("clk0=100".toList) = Action.setFreq 0 100 := by decide
    have h2 : cliAction ("clk 0 100".toList) = Action.setFreq 0 100 := by decide
    unfold cliWrites
    rw [h1, h2]
  · intro cmd
    unfold cliAction
    by_cases h : cmd = []
    · subst h
      simp
    · rw [if_neg h, if_neg (by simpa using h)]
      congr 1
      rw [← List.map_take, List.map_map,
        show replEq ∘ replEq = replEq from funext replEq_idem]

end Si5351
